import Mathlib

/-!
Verification of the launchpad core layer: amount formatting/parsing
(AmountMath), the i128 hi/lo decoder (ValueCodec), vesting math
(VestingCalculator), the submit-and-poll loop (TransactionLifecycle),
and the error classifier / pre-flight simulator (ErrorClassifier,
SimulationClient).  The TypeScript sources are embedded shallowly:
JavaScript BigInt becomes Nat/Int (BigInt arithmetic is exact),
JavaScript strings become Lean String / List Char, and the network
round trips become explicit parameters (streams of statuses, abstract
simulation responses).
-/

/- ──────────────────────────────────────────────────────────────────
   Decimal digit strings: shallow embedding of JS BigInt.toString(),
   String.padStart, and the trailing-zero strip regex replace.
   ────────────────────────────────────────────────────────────────── -/

/-- The ASCII digit character for a value below ten (JS number-to-string digits). -/
def digitChar (d : Nat) : Char := Char.ofNat (48 + d)

/-- The numeric value of an ASCII digit character. -/
def charVal (c : Char) : Nat := c.toNat - 48

/-- Fuel-driven big-endian decimal rendering of a natural number.
The fuel only bounds the recursion; with fuel above the argument it
produces exactly the digits of the JS decimal representation. -/
def natToCharsAux : Nat → Nat → List Char
  | 0, _ => []
  | fuel + 1, n =>
    if n < 10 then [digitChar n]
    else natToCharsAux fuel (n / 10) ++ [digitChar (n % 10)]

/-- The decimal digit string of a natural number, as JS BigInt.toString()
produces it (no sign, no separators, "0" for zero). -/
def natToChars (n : Nat) : List Char := natToCharsAux (n + 1) n

/-- The numeric value of a big-endian digit string. -/
def charsVal (cs : List Char) : Nat :=
  cs.foldl (fun a c => 10 * a + charVal c) 0

/-- Parse a big-endian digit string: fails on the empty string and on any
non-digit character (as JS BigInt(string) throws on them). -/
def charsToNat (cs : List Char) : Option Nat :=
  if cs.isEmpty || !cs.all Char.isDigit then none else some (charsVal cs)

/-- Embedding of String.prototype.padStart(n, c): prepend copies of the pad
character until the length reaches n. -/
def padStart (cs : List Char) (n : Nat) (c : Char) : List Char :=
  List.replicate (n - cs.length) c ++ cs

/-- Embedding of .replace(/0+$/, ""): drop the maximal run of trailing
zero characters. -/
def stripZeros (cs : List Char) : List Char :=
  (cs.reverse.dropWhile (fun c => c == '0')).reverse

/-- Embedding of String.prototype.split("."): the list of chunks between
occurrences of the dot character. -/
def splitDot : List Char → List (List Char)
  | [] => [[]]
  | c :: rest =>
    if c = '.' then [] :: splitDot rest
    else
      match splitDot rest with
      | [] => [[c]]
      | p :: ps => (c :: p) :: ps

/- ──────────────────────────────────────────────────────────────────
   AmountMath: the two formatTokenAmount implementations.
   ────────────────────────────────────────────────────────────────── -/

/-- Embedding of formatTokenAmount from lib/vesting.ts: integer-divide the
raw bigint by 10^decimals, render the whole part with toString, and when the
remainder is nonzero append a dot and the remainder zero-padded to decimals
digits with trailing zeros stripped.  The source default decimals is 7. -/
def Vesting.formatTokenAmount (raw : Nat) (decimals : Nat) : String :=
  let divisor := 10 ^ decimals
  let whole := raw / divisor
  let frac := raw % divisor
  if frac = 0 then ⟨natToChars whole⟩
  else ⟨natToChars whole ++ '.' :: stripZeros (padStart (natToChars frac) decimals '0')⟩

/-- Grouping pass over a little-endian digit list: a comma after every three
digits, as the en-US locale groups integers. -/
def groupDigitsLE : List Char → List Char
  | a :: b :: c :: d :: rest => a :: b :: c :: ',' :: groupDigitsLE (d :: rest)
  | l => l

/-- Embedding of BigInt.prototype.toLocaleString() under the default en-US
locale: the decimal digits with comma thousands separators. -/
def toLocaleString (n : Nat) : List Char :=
  (groupDigitsLE (natToChars n).reverse).reverse

/-- Embedding of formatTokenAmount from lib/stellar.ts on numeric input:
identical division/remainder handling, but the whole part is rendered with
toLocaleString (grouping separators).  The source takes the raw amount as a
decimal string and has an "N-slash-A" sentinel passthrough; both are outside
the numeric domain modelled here. -/
def Stellar.formatTokenAmount (raw : Nat) (decimals : Nat) : String :=
  let divisor := 10 ^ decimals
  let whole := raw / divisor
  let frac := raw % divisor
  if frac = 0 then ⟨toLocaleString whole⟩
  else ⟨toLocaleString whole ++ '.' :: stripZeros (padStart (natToChars frac) decimals '0')⟩

/-- Modelled from the spec: parseToRaw (the repository calls it
parseTokenAmount; only its call sites are in the source slice, not its
definition).  Split the display string on the dot; reject a fractional
segment longer than decimals; pad the fractional segment to exactly
decimals digits; combine whole * 10^decimals + fraction as one integer.
Non-digit input is rejected rather than guessed at. -/
def parseToRaw (display : String) (decimals : Nat) : Option Nat :=
  match splitDot display.data with
  | [whole] => (charsToNat whole).map (fun w => w * 10 ^ decimals)
  | [whole, frac] =>
    if decimals < frac.length then none
    else
      match charsToNat whole,
          charsToNat (frac ++ List.replicate (decimals - frac.length) '0') with
      | some w, some f => some (w * 10 ^ decimals + f)
      | _, _ => none
  | _ => none

/- ──────────────────────────────────────────────────────────────────
   ValueCodec: the two decodeI128 implementations.
   ────────────────────────────────────────────────────────────────── -/

/-- Embedding of decodeI128 from lib/vesting.ts: (hi << 64n) | lo on exact
bigints.  BigInt shift-left is exact multiplication by 2^64 (also for
negative hi) and BigInt bitwise or has two's-complement semantics, which
Int.lor models. -/
def Vesting.decodeI128 (hi lo : Int) : Int := Int.lor (hi * 2 ^ 64) lo

/-- Embedding of decodeI128 from lib/stellar.ts: (hi << 64n) + lo on exact
bigints (the source returns its decimal string; the numeric value is
modelled). -/
def Stellar.decodeI128 (hi lo : Int) : Int := hi * 2 ^ 64 + lo

/- ──────────────────────────────────────────────────────────────────
   VestingCalculator.
   ────────────────────────────────────────────────────────────────── -/

/-- Modelled from the spec: the contract-side vested_amount (the vesting
contract itself is not in the repository slice; the frontend only fetches
its result via simulation).  Before the cliff nothing is vested, from the
end ledger everything is, and in between the amount vests linearly with
floor division, computed with exact integer arithmetic. -/
def vestedAmount (totalAmount cliffLedger endLedger currentLedger : Nat) : Nat :=
  if currentLedger < cliffLedger then 0
  else if endLedger ≤ currentLedger then totalAmount
  else totalAmount * (currentLedger - cliffLedger) / (endLedger - cliffLedger)

/-- Embedding of the releasable-amount computation in fetchVestingInfo
(lib/vesting.ts): the plain bigint difference vestedAmount - released. -/
def Vesting.releasableAmount (vestedAmount released : Int) : Int :=
  vestedAmount - released

/- ──────────────────────────────────────────────────────────────────
   TransactionLifecycle: the two submit-and-poll loops.  The remote
   getTransaction endpoint is abstracted as a stream of statuses
   (st i is the status reported by the i-th getTransaction call).
   ────────────────────────────────────────────────────────────────── -/

/-- Status of a getTransaction response. -/
inductive TxStatus where
  | notFound
  | success
  | failed
deriving DecidableEq, Repr

/-- How a JS async function settles: a resolved value or a thrown error. -/
inductive TxOutcome where
  | resolved
  | thrown (msg : String)
deriving DecidableEq, Repr

/-- Embedding of the poll loop in submitTx (lib/vesting.ts): up to fuel
iterations, each sleeping 2s then reading the next status; SUCCESS resolves,
FAILED throws, anything else keeps polling; exhausting the loop throws the
timeout error. -/
def Vesting.pollLoop (st : Nat → TxStatus) : Nat → Nat → TxOutcome
  | 0, _ => .thrown "Transaction timed out waiting for confirmation"
  | fuel + 1, i =>
    match st i with
    | .success => .resolved
    | .failed => .thrown "Transaction failed on-chain"
    | .notFound => Vesting.pollLoop st fuel (i + 1)

/-- Embedding of the poll phase of submitTx (lib/vesting.ts): a for loop of
30 polls (the submission-phase ERROR check precedes this phase and is not
part of polling). -/
def Vesting.submitTx (st : Nat → TxStatus) : TxOutcome :=
  Vesting.pollLoop st 30 0

/-- Embedding of the while loop in submitTransaction (lib/stellar.ts):
starting from the status of the initial getTransaction call, re-read (after
a 1s sleep) while the status is NOT_FOUND and the attempt budget remains;
return the final status. -/
def Stellar.pollLoop (st : Nat → TxStatus) : Nat → Nat → TxStatus → TxStatus
  | 0, _, s => s
  | fuel + 1, i, s =>
    match s with
    | .notFound => Stellar.pollLoop st fuel (i + 1) (st i)
    | s => s

/-- Embedding of the poll phase of submitTransaction (lib/stellar.ts):
an immediate getTransaction, then the while loop with maxAttempts = 30;
a final NOT_FOUND throws the not-found error, FAILED throws (the thrown
message's base64 result payload is abstracted away), anything else resolves
with the hash. -/
def Stellar.submitTransaction (st : Nat → TxStatus) : TxOutcome :=
  match Stellar.pollLoop st 30 1 (st 0) with
  | .notFound => .thrown "Transaction not found after polling"
  | .failed => .thrown "Transaction failed"
  | .success => .resolved

/- ──────────────────────────────────────────────────────────────────
   ErrorClassifier (lib/transactionSimulator.ts).
   ────────────────────────────────────────────────────────────────── -/

/-- Embedding of String.prototype.toLowerCase for one character, on the
ASCII range the classifier's patterns use. -/
def toLowerChar (c : Char) : Char :=
  if 65 ≤ c.toNat ∧ c.toNat ≤ 90 then Char.ofNat (c.toNat + 32) else c

/-- Embedding of String.prototype.toLowerCase. -/
def toLowerList (cs : List Char) : List Char := cs.map toLowerChar

/-- Whether the needle (second argument) is a leading piece of the list. -/
def hasPrefixCL : List Char → List Char → Bool
  | _, [] => true
  | [], _ :: _ => false
  | h :: hs, n :: ns => h == n && hasPrefixCL hs ns

/-- Embedding of String.prototype.includes: substring containment. -/
def containsCL : List Char → List Char → Bool
  | [], needle => needle.isEmpty
  | h :: t, needle => hasPrefixCL (h :: t) needle || containsCL t needle

/-- Embedding of ERROR_MESSAGE_MAP (lib/transactionSimulator.ts), in the
source's insertion order, which is the order Object.entries iterates. -/
def TxSim.ERROR_MESSAGE_MAP : List (String × String) := [
  ("already initialized", "Contract is already initialized. Check if it was deployed previously."),
  ("insufficient balance", "Insufficient token balance for this operation."),
  ("insufficient allowance", "Insufficient allowance approved for the spender."),
  ("amount must be positive", "Amount must be greater than zero."),
  ("max_supply exceeded", "Operation would exceed the maximum supply cap."),
  ("mint would exceed max_supply", "Minting this amount would exceed the maximum supply cap."),
  ("account is frozen", "The account is frozen and cannot perform transfers."),
  ("not initialized", "Contract is not initialized. This token may not exist."),
  ("no pending admin", "No pending admin to accept. Did you propose_admin first?"),
  ("insufficient balance to burn", "Cannot burn more tokens than the account holds."),
  ("schedule already exists", "A vesting schedule already exists for this recipient."),
  ("no schedule found", "No vesting schedule found for this recipient."),
  ("schedule has been revoked", "This vesting schedule has been revoked."),
  ("nothing to release", "No vested tokens are available to release."),
  ("schedule already revoked", "This schedule has already been revoked."),
  ("end_ledger must be after cliff_ledger", "End ledger must be after cliff ledger."),
  ("total_amount must be positive", "Total amount must be greater than zero."),
  ("Invalid Stellar public key", "The provided Stellar address is not valid."),
  ("max_supply must be positive", "Maximum supply must be greater than zero."),
  ("initial_supply exceeds max_supply", "Initial supply cannot exceed maximum supply."),
  ("allowance would overflow", "Allowance amount is too large and would overflow."),
  ("approval would exceed max_supply", "Approval amount cannot exceed the token's maximum supply.")]

/-- First rule of the table whose lowercased key occurs in the lowercased
input; this is the for-of loop over Object.entries in parseSorobanError. -/
def firstMatch (lower : List Char) : List (String × String) → Option String
  | [] => none
  | (k, m) :: rest =>
    if containsCL lower (toLowerList k.data) then some m
    else firstMatch lower rest

/-- Embedding of parseSorobanError (lib/transactionSimulator.ts): ordered
substring matching over the rule table, then the five hard-coded fallback
patterns, then the original message unchanged. -/
def TxSim.parseSorobanError (errorMessage : String) : String :=
  let lowerError := toLowerList errorMessage.data
  match firstMatch lowerError TxSim.ERROR_MESSAGE_MAP with
  | some m => m
  | none =>
    if containsCL lowerError "invocation failed".data then
      "Contract invocation failed. The transaction may have invalid parameters."
    else if containsCL lowerError "insufficient funds".data then
      "Insufficient XLM balance to pay transaction fees."
    else if containsCL lowerError "timeout".data then
      "The operation timed out. Please try again."
    else if containsCL lowerError "deadline exceeded".data then
      "Transaction deadline exceeded. Please try again."
    else if containsCL lowerError "build failed".data then
      "Failed to build transaction. Please check your inputs."
    else errorMessage

/-- Whether an input matches no rule of the table and none of the five
fallback patterns, so that parseSorobanError falls through to the original
text. -/
def TxSim.matchesNoRule (s : String) : Bool :=
  let lower := toLowerList s.data
  (firstMatch lower TxSim.ERROR_MESSAGE_MAP).isNone
    && !containsCL lower "invocation failed".data
    && !containsCL lower "insufficient funds".data
    && !containsCL lower "timeout".data
    && !containsCL lower "deadline exceeded".data
    && !containsCL lower "build failed".data

/- ──────────────────────────────────────────────────────────────────
   SimulationClient (simulateTransaction, lib/transactionSimulator.ts).
   ────────────────────────────────────────────────────────────────── -/

/-- Embedding of the PreflightCheckResult shape.  simulationDetails is
optional in the source and never populated by simulateTransaction. -/
structure PreflightCheckResult where
  success : Bool
  warnings : List String
  errors : List String
  simulationDetails : Option (String × String)
deriving DecidableEq, Repr

/-- The remote simulateTransaction response as the SDK classifies it: an
error response with a message, a success response with or without a result
payload, or a response that is neither. -/
inductive SimResponse where
  | simError (msg : String)
  | simSuccess (hasResult : Bool)
  | other
deriving DecidableEq, Repr

/-- The behaviour of the try block up to the RPC response: either some step
(building the transaction, the network call) throws, or a response comes
back. -/
inductive SimAttempt where
  | throws (msg : String)
  | returns (resp : SimResponse)
deriving DecidableEq, Repr

/-- Embedding of simulateTransaction (lib/transactionSimulator.ts): an
error response is classified and returned as a single-error failure; a
response that is not a success with a result payload is a generic failure;
a success with a result is success with empty errors; any exception thrown
inside the try block is caught, classified and returned as a single-error
failure. -/
def TxSim.simulateTransaction (attempt : SimAttempt) : PreflightCheckResult :=
  match attempt with
  | .throws msg =>
    { success := false, warnings := [],
      errors := [TxSim.parseSorobanError msg], simulationDetails := none }
  | .returns (.simError msg) =>
    { success := false, warnings := [],
      errors := [TxSim.parseSorobanError msg], simulationDetails := none }
  | .returns (.simSuccess true) =>
    { success := true, warnings := [], errors := [], simulationDetails := none }
  | .returns (.simSuccess false) =>
    { success := false, warnings := [],
      errors := ["Transaction simulation failed. Please check your inputs."],
      simulationDetails := none }
  | .returns .other =>
    { success := false, warnings := [],
      errors := ["Transaction simulation failed. Please check your inputs."],
      simulationDetails := none }

/- ──────────────────────────────────────────────────────────────────
   Basic lemmas about the digit-string embedding.
   ────────────────────────────────────────────────────────────────── -/

theorem charVal_digitChar {d : Nat} (h : d < 10) : charVal (digitChar d) = d := by
  interval_cases d <;> decide

theorem isDigit_digitChar {d : Nat} (h : d < 10) : (digitChar d).isDigit = true := by
  interval_cases d <;> decide

theorem charsVal_foldl (b : List Char) :
    ∀ x : Nat, List.foldl (fun a c => 10 * a + charVal c) x b
      = x * 10 ^ b.length + charsVal b := by
  induction b with
  | nil => intro x; simp [charsVal]
  | cons c t ih =>
    intro x
    simp only [List.foldl_cons, List.length_cons, charsVal] at *
    rw [ih (10 * x + charVal c), ih (10 * 0 + charVal c)]
    ring

theorem charsVal_append (a b : List Char) :
    charsVal (a ++ b) = charsVal a * 10 ^ b.length + charsVal b := by
  simp only [charsVal, List.foldl_append]
  rw [charsVal_foldl]
  rfl

theorem charsVal_replicate_zero (k : Nat) :
    charsVal (List.replicate k '0') = 0 := by
  induction k with
  | zero => rfl
  | succ n ih =>
    rw [List.replicate_succ]
    show charsVal ('0' :: List.replicate n '0') = 0
    simp only [charsVal, List.foldl_cons]
    rw [charsVal_foldl]
    simpa [charsVal, charVal] using ih

theorem natToCharsAux_val : ∀ fuel n, n < fuel →
    charsVal (natToCharsAux fuel n) = n := by
  intro fuel
  induction fuel with
  | zero => intro n h; omega
  | succ f ih =>
    intro n h
    rw [natToCharsAux]
    by_cases h10 : n < 10
    · simp only [if_pos h10]
      simp [charsVal, charVal_digitChar h10]
    · simp only [if_neg h10]
      rw [charsVal_append]
      have hdiv : n / 10 < n := Nat.div_lt_self (by omega) (by omega)
      rw [ih (n / 10) (by omega)]
      simp [charsVal, charVal_digitChar (Nat.mod_lt n (by omega))]
      omega

theorem natToCharsAux_digits : ∀ fuel n, n < fuel →
    (natToCharsAux fuel n).all Char.isDigit = true := by
  intro fuel
  induction fuel with
  | zero => intro n h; omega
  | succ f ih =>
    intro n h
    rw [natToCharsAux]
    by_cases h10 : n < 10
    · simp [if_pos h10, isDigit_digitChar h10]
    · simp only [if_neg h10, List.all_append]
      have hdiv : n / 10 < n := Nat.div_lt_self (by omega) (by omega)
      rw [ih (n / 10) (by omega)]
      simp [isDigit_digitChar (Nat.mod_lt n (by omega))]

theorem natToCharsAux_ne_nil : ∀ fuel n, n < fuel →
    natToCharsAux fuel n ≠ [] := by
  intro fuel
  induction fuel with
  | zero => intro n h; omega
  | succ f _ =>
    intro n _
    rw [natToCharsAux]
    by_cases h10 : n < 10
    · simp [if_pos h10]
    · simp [if_neg h10]

theorem natToCharsAux_len : ∀ fuel n d, n < fuel → n < 10 ^ (d + 1) →
    (natToCharsAux fuel n).length ≤ d + 1 := by
  intro fuel
  induction fuel with
  | zero => intro n d h; omega
  | succ f ih =>
    intro n d h hp
    rw [natToCharsAux]
    by_cases h10 : n < 10
    · simp [if_pos h10]
    · simp only [if_neg h10, List.length_append, List.length_cons,
        List.length_nil]
      match d with
      | 0 => simp at hp; omega
      | d + 1 =>
        have hdiv : n / 10 < n := Nat.div_lt_self (by omega) (by omega)
        have hlt : n / 10 < 10 ^ (d + 1) := by
          rw [Nat.div_lt_iff_lt_mul (by omega)]
          calc n < 10 ^ (d + 1 + 1) := hp
            _ = 10 ^ (d + 1) * 10 := by ring
        have := ih (n / 10) d (by omega) hlt
        omega

theorem charsVal_natToChars (n : Nat) : charsVal (natToChars n) = n :=
  natToCharsAux_val (n + 1) n (Nat.lt_succ_self n)

theorem natToChars_digits (n : Nat) : (natToChars n).all Char.isDigit = true :=
  natToCharsAux_digits (n + 1) n (Nat.lt_succ_self n)

theorem natToChars_ne_nil (n : Nat) : natToChars n ≠ [] :=
  natToCharsAux_ne_nil (n + 1) n (Nat.lt_succ_self n)

theorem natToChars_len {n d : Nat} (h : n < 10 ^ (d + 1)) :
    (natToChars n).length ≤ d + 1 :=
  natToCharsAux_len (n + 1) n d (Nat.lt_succ_self n) h

theorem charsToNat_natToChars (n : Nat) : charsToNat (natToChars n) = some n := by
  have h1 := natToChars_digits n
  have h2 := natToChars_ne_nil n
  simp only [charsToNat, h1, charsVal_natToChars]
  simp [List.isEmpty_iff, h2]

/- ──────────────────────────────────────────────────────────────────
   Lemmas about stripZeros and splitDot.
   ────────────────────────────────────────────────────────────────── -/

theorem stripZeros_decomp (cs : List Char) :
    ∃ k, cs = stripZeros cs ++ List.replicate k '0' := by
  refine ⟨(cs.reverse.takeWhile (fun c => c == '0')).length, ?_⟩
  have hsplit :
      cs.reverse.takeWhile (fun c => c == '0')
        ++ cs.reverse.dropWhile (fun c => c == '0') = cs.reverse :=
    List.takeWhile_append_dropWhile ..
  have htake : cs.reverse.takeWhile (fun c => c == '0')
      = List.replicate (cs.reverse.takeWhile (fun c => c == '0')).length '0' := by
    apply List.eq_replicate_of_mem
    intro b hb
    have := List.mem_takeWhile_imp hb
    simpa using this
  have htake2 : (cs.reverse.takeWhile (fun c => c == '0')).reverse
      = List.replicate (cs.reverse.takeWhile (fun c => c == '0')).length '0' := by
    rw [htake, List.reverse_replicate]
    simp
  calc cs = cs.reverse.reverse := (List.reverse_reverse cs).symm
    _ = (cs.reverse.takeWhile (fun c => c == '0')
          ++ cs.reverse.dropWhile (fun c => c == '0')).reverse := by rw [hsplit]
    _ = (cs.reverse.dropWhile (fun c => c == '0')).reverse
          ++ (cs.reverse.takeWhile (fun c => c == '0')).reverse := by
        rw [List.reverse_append]
    _ = stripZeros cs
          ++ List.replicate (cs.reverse.takeWhile (fun c => c == '0')).length '0' := by
        rw [stripZeros, htake2]

theorem mem_of_mem_stripZeros {c : Char} {cs : List Char}
    (h : c ∈ stripZeros cs) : c ∈ cs := by
  rw [stripZeros, List.mem_reverse] at h
  have := (List.dropWhile_sublist (l := cs.reverse) (fun c => c == '0')).mem h
  rwa [List.mem_reverse] at this

theorem splitDot_no_dot {cs : List Char} (h : '.' ∉ cs) : splitDot cs = [cs] := by
  induction cs with
  | nil => rfl
  | cons c t ih =>
    have hc : c ≠ '.' := fun hc => h (hc ▸ List.mem_cons_self c t)
    have ht : '.' ∉ t := fun hm => h (List.mem_cons_of_mem c hm)
    rw [splitDot, if_neg hc, ih ht]

theorem splitDot_append {a b : List Char} (ha : '.' ∉ a) :
    splitDot (a ++ '.' :: b) = a :: splitDot b := by
  induction a with
  | nil => simp [splitDot]
  | cons c t ih =>
    have hc : c ≠ '.' := fun hc => ha (hc ▸ List.mem_cons_self c t)
    have ht : '.' ∉ t := fun hm => ha (List.mem_cons_of_mem c hm)
    rw [List.cons_append, splitDot, if_neg hc, ih ht]

theorem not_dot_mem_of_digits {cs : List Char}
    (h : cs.all Char.isDigit = true) : '.' ∉ cs := by
  intro hm
  have := List.all_eq_true.mp h _ hm
  exact absurd this (by decide)

/- ──────────────────────────────────────────────────────────────────
   Round-trip machinery for AmountMath.
   ────────────────────────────────────────────────────────────────── -/

theorem all_digit_replicate_zero (k : Nat) :
    (List.replicate k '0').all Char.isDigit = true := by
  rw [List.all_eq_true]
  intro c hc
  have h := List.eq_of_mem_replicate hc
  subst h
  decide

theorem formatTokenAmount_data_of_mod_eq_zero (raw d : Nat)
    (h : raw % 10 ^ d = 0) :
    (Vesting.formatTokenAmount raw d).data = natToChars (raw / 10 ^ d) := by
  simp [Vesting.formatTokenAmount, h]

theorem formatTokenAmount_data_of_mod_ne_zero (raw d : Nat)
    (h : raw % 10 ^ d ≠ 0) :
    (Vesting.formatTokenAmount raw d).data
      = natToChars (raw / 10 ^ d)
        ++ '.' :: stripZeros (padStart (natToChars (raw % 10 ^ d)) d '0') := by
  simp [Vesting.formatTokenAmount, h]

theorem stripPad_spec (f d : Nat) (hf : f ≠ 0) (hlt : f < 10 ^ d) :
    (stripZeros (padStart (natToChars f) d '0')).all Char.isDigit = true
    ∧ (stripZeros (padStart (natToChars f) d '0')).length ≤ d
    ∧ charsToNat (stripZeros (padStart (natToChars f) d '0')
        ++ List.replicate
            (d - (stripZeros (padStart (natToChars f) d '0')).length) '0')
      = some f := by
  have hd1 : 1 ≤ d := by
    rcases Nat.eq_zero_or_pos d with h0 | h
    · subst h0; simp at hlt; omega
    · exact h
  obtain ⟨d', rfl⟩ : ∃ d', d = d' + 1 := ⟨d - 1, by omega⟩
  have hlen : (natToChars f).length ≤ d' + 1 := natToChars_len hlt
  have hpadlen : (padStart (natToChars f) (d' + 1) '0').length = d' + 1 := by
    simp only [padStart, List.length_append, List.length_replicate]
    omega
  have hpadall : (padStart (natToChars f) (d' + 1) '0').all Char.isDigit = true := by
    simp only [padStart, List.all_append]
    rw [all_digit_replicate_zero, natToChars_digits]
    rfl
  have hpadval : charsVal (padStart (natToChars f) (d' + 1) '0') = f := by
    rw [padStart, charsVal_append, charsVal_replicate_zero, charsVal_natToChars]
    simp
  obtain ⟨k, hk⟩ := stripZeros_decomp (padStart (natToChars f) (d' + 1) '0')
  have hklen : (stripZeros (padStart (natToChars f) (d' + 1) '0')).length + k
      = d' + 1 := by
    have := congrArg List.length hk
    simp only [List.length_append, List.length_replicate] at this
    omega
  have hstripall :
      (stripZeros (padStart (natToChars f) (d' + 1) '0')).all Char.isDigit
        = true := by
    rw [List.all_eq_true]
    intro c hc
    exact List.all_eq_true.mp hpadall c (mem_of_mem_stripZeros hc)
  refine ⟨hstripall, by omega, ?_⟩
  have harg : stripZeros (padStart (natToChars f) (d' + 1) '0')
      ++ List.replicate
          (d' + 1 - (stripZeros (padStart (natToChars f) (d' + 1) '0')).length)
          '0'
      = padStart (natToChars f) (d' + 1) '0' := by
    have hkeq : d' + 1
        - (stripZeros (padStart (natToChars f) (d' + 1) '0')).length = k := by
      omega
    rw [hkeq, ← hk]
  rw [harg, charsToNat]
  have hne : padStart (natToChars f) (d' + 1) '0' ≠ [] := by
    intro hnil
    have := congrArg List.length hnil
    simp [hpadlen] at this
  rw [hpadval, hpadall]
  simp [List.isEmpty_iff, hne]

/- ──────────────────────────────────────────────────────────────────
   C1, C2: AmountMath claims.
   ────────────────────────────────────────────────────────────────── -/

/-- C1 counterexample: the claim quantifies over both formatTokenAmount
implementations, but the lib/stellar.ts one renders the whole part with
grouping separators, so its display string for raw 10^10 at 7 decimals is
"1,000" and does not parse back to 10^10 (parseToRaw rejects the comma). -/
theorem C1_counterexample :
    ¬ parseToRaw (Stellar.formatTokenAmount 10000000000 7) 7
        = some 10000000000 := by decide

/-- C1 (amended): the round-trip law holds for the lib/vesting.ts
formatTokenAmount (plain toString, no separators): for every non-negative
raw and decimals in [0, 18], parsing the display string back at the same
decimals yields raw again. -/
theorem C1_roundTrip (raw decimals : Nat) (_hd : decimals ≤ 18) :
    parseToRaw (Vesting.formatTokenAmount raw decimals) decimals = some raw := by
  have hpow : 0 < 10 ^ decimals := Nat.pow_pos (by omega)
  by_cases hf : raw % 10 ^ decimals = 0
  · have hdata := formatTokenAmount_data_of_mod_eq_zero raw decimals hf
    have hsplit : splitDot (Vesting.formatTokenAmount raw decimals).data
        = [natToChars (raw / 10 ^ decimals)] := by
      rw [hdata]
      exact splitDot_no_dot (not_dot_mem_of_digits (natToChars_digits _))
    simp only [parseToRaw, hsplit, charsToNat_natToChars, Option.map_some']
    congr 1
    exact Nat.div_mul_cancel (Nat.dvd_of_mod_eq_zero hf)
  · have hmod_lt : raw % 10 ^ decimals < 10 ^ decimals := Nat.mod_lt _ hpow
    obtain ⟨hall, hlen, hval⟩ :=
      stripPad_spec (raw % 10 ^ decimals) decimals hf hmod_lt
    have hdata := formatTokenAmount_data_of_mod_ne_zero raw decimals hf
    have hsplit : splitDot (Vesting.formatTokenAmount raw decimals).data
        = [natToChars (raw / 10 ^ decimals),
           stripZeros (padStart (natToChars (raw % 10 ^ decimals)) decimals '0')] := by
      rw [hdata,
        splitDot_append (not_dot_mem_of_digits (natToChars_digits _)),
        splitDot_no_dot (not_dot_mem_of_digits hall)]
    simp only [parseToRaw, hsplit]
    rw [if_neg (by omega), charsToNat_natToChars, hval]
    show some (raw / 10 ^ decimals * 10 ^ decimals + raw % 10 ^ decimals)
      = some raw
    congr 1
    exact Nat.div_add_mod' raw (10 ^ decimals)

/-- C1 witness: the round-trip law at raw 10230 and 7 decimals. -/
theorem C1_witness :
    7 ≤ 18 ∧ parseToRaw (Vesting.formatTokenAmount 10230 7) 7 = some 10230 :=
  ⟨by decide, C1_roundTrip 10230 7 (by decide)⟩

/-- C2 counterexample: the lib/stellar.ts formatTokenAmount renders
toDisplay(10^10, 7) as "1,000" (with a grouping separator), not "1000" as
the claim states for both implementations. -/
theorem C2_counterexample :
    ¬ Stellar.formatTokenAmount 10000000000 7 = "1000" := by decide

/-- C2 (amended): toDisplay divides by 10^decimals, zero-pads the remainder
to decimals digits and strips trailing zeros, returning only the integer
part for an empty fraction; toDisplay(0,7) is "0" for both implementations
and toDisplay(10^10, 7) is "1000" for the lib/vesting.ts implementation,
while the lib/stellar.ts implementation groups the integer part with the
en-US locale, giving "1,000". -/
theorem C2_toDisplay :
    Vesting.formatTokenAmount 0 7 = "0"
    ∧ Stellar.formatTokenAmount 0 7 = "0"
    ∧ Vesting.formatTokenAmount 10000000000 7 = "1000"
    ∧ Stellar.formatTokenAmount 10000000000 7 = "1,000"
    ∧ Vesting.formatTokenAmount 10230 2 = "102.3"
    ∧ Vesting.formatTokenAmount 5 2 = "0.05"
    ∧ Stellar.formatTokenAmount 10230 2 = "102.3" := by
  refine ⟨by decide, by decide, by decide, by decide, by decide, by decide, by decide⟩

/- ──────────────────────────────────────────────────────────────────
   C3: decodeI128.
   ────────────────────────────────────────────────────────────────── -/

theorem nat_or_of_mul_pow (a b : Nat) (hb : b < 2 ^ 64) :
    (2 ^ 64 * a) ||| b = 2 ^ 64 * a + b := by
  apply Nat.eq_of_testBit_eq
  intro j
  rw [Nat.testBit_or, Nat.testBit_mul_pow_two_add a hb j]
  by_cases hj : j < 64
  · rw [if_pos hj]
    have h1 : Nat.testBit (2 ^ 64 * a) j = false := by
      rw [Nat.testBit_mul_pow_two]
      simp [Nat.not_le.mpr hj]
    rw [h1]
    simp
  · rw [if_neg hj]
    have h2 : Nat.testBit b j = false :=
      Nat.testBit_lt_two_pow
        (lt_of_lt_of_le hb (Nat.pow_le_pow_right (by omega) (by omega)))
    rw [h2, Nat.testBit_mul_pow_two]
    simp [Nat.le_of_not_lt hj]

theorem nat_ldiff_low_ones (a b : Nat) (hb : b < 2 ^ 64) :
    Nat.ldiff (2 ^ 64 * a + (2 ^ 64 - 1)) b = 2 ^ 64 * a + (2 ^ 64 - 1 - b) := by
  have hp : (1 : Nat) ≤ 2 ^ 64 := Nat.one_le_two_pow
  apply Nat.eq_of_testBit_eq
  intro j
  have hones : 2 ^ 64 - 1 < 2 ^ 64 := by omega
  have hsub : 2 ^ 64 - 1 - b < 2 ^ 64 := by omega
  rw [Nat.testBit_ldiff, Nat.testBit_mul_pow_two_add a hones j,
    Nat.testBit_mul_pow_two_add a hsub j]
  by_cases hj : j < 64
  · rw [if_pos hj, if_pos hj, Nat.testBit_two_pow_sub_one]
    have he : 2 ^ 64 - 1 - b = 2 ^ 64 - (b + 1) := by omega
    rw [he, Nat.testBit_two_pow_sub_succ hb]
  · rw [if_neg hj, if_neg hj]
    have h2 : Nat.testBit b j = false :=
      Nat.testBit_lt_two_pow
        (lt_of_lt_of_le hb (Nat.pow_le_pow_right (by omega) (by omega)))
    rw [h2]
    simp

/-- C3: on the whole signed-64/unsigned-64 domain, the bigint decoder
(hi << 64) | lo computes exactly hi * 2^64 + lo with exact integer
arithmetic, so the lib/vesting.ts or-variant and the lib/stellar.ts
plus-variant of decodeI128 agree on every input; in particular both
decode hi = 0, lo = 500 to 500 (see the witness). -/
theorem C3_decodeI128 (hi lo : Int) (h1 : -(2 ^ 63) ≤ hi) (h2 : hi < 2 ^ 63)
    (h3 : 0 ≤ lo) (h4 : lo < 2 ^ 64) :
    Vesting.decodeI128 hi lo = hi * 2 ^ 64 + lo
    ∧ Stellar.decodeI128 hi lo = hi * 2 ^ 64 + lo := by
  refine ⟨?_, rfl⟩
  obtain ⟨l, rfl⟩ : ∃ l : Nat, lo = (l : Int) :=
    ⟨lo.toNat, (Int.toNat_of_nonneg h3).symm⟩
  have hl : l < 2 ^ 64 := by exact_mod_cast h4
  cases hi with
  | ofNat m =>
    show Int.lor (Int.ofNat m * 2 ^ 64) (Int.ofNat l) = _
    have hmul : (Int.ofNat m) * 2 ^ 64 = Int.ofNat (2 ^ 64 * m) := by
      simp only [Int.ofNat_eq_coe]
      push_cast
      try ring
    rw [hmul]
    have hlor : Int.lor (Int.ofNat (2 ^ 64 * m)) (Int.ofNat l)
        = Int.ofNat ((2 ^ 64 * m) ||| l) := rfl
    rw [hlor, nat_or_of_mul_pow m l hl]
    simp only [Int.ofNat_eq_coe]
    push_cast
    ring
  | negSucc m =>
    have hp : (1 : Nat) ≤ 2 ^ 64 := Nat.one_le_two_pow
    have hM : Int.negSucc m * 2 ^ 64
        = Int.negSucc (2 ^ 64 * m + (2 ^ 64 - 1)) := by
      rw [Int.negSucc_eq, Int.negSucc_eq]
      push_cast [hp]
      ring
    show Int.lor (Int.negSucc m * 2 ^ 64) (Int.ofNat l) = _
    rw [hM]
    have hlor : Int.lor (Int.negSucc (2 ^ 64 * m + (2 ^ 64 - 1))) (Int.ofNat l)
        = Int.negSucc (Nat.ldiff (2 ^ 64 * m + (2 ^ 64 - 1)) l) := rfl
    rw [hlor, nat_ldiff_low_ones m l hl, Int.negSucc_eq, Int.negSucc_eq]
    have hb1 : l ≤ 2 ^ 64 - 1 := by omega
    rw [Nat.cast_add, Nat.cast_mul, Nat.cast_sub hb1, Nat.cast_sub hp]
    push_cast
    ring

/-- C3 witness: decoding I128 with hi = 0 and lo = 500 yields 500 in both
implementations. -/
theorem C3_witness :
    Vesting.decodeI128 0 500 = 500 ∧ Stellar.decodeI128 0 500 = 500 := by
  have h := C3_decodeI128 0 500 (by norm_num) (by norm_num) (by norm_num)
    (by norm_num)
  exact ⟨by rw [h.1]; norm_num, by rw [h.2]; norm_num⟩

/- ──────────────────────────────────────────────────────────────────
   C4, C5: vesting math.
   ────────────────────────────────────────────────────────────────── -/

/-- C4: the vested amount is 0 before the cliff, the full total from the
end ledger on, and the floor of the linear interpolation in between,
computed with exact integer arithmetic; on the schedule total 1000,
cliff 100, end 1100 it takes the values 0, 500, 1000, 1000 at ledgers
100, 600, 1100, 1200. -/
theorem C4_vestedAmount (total cliff endL cur : Nat) (hce : cliff ≤ endL) :
    (cur < cliff → vestedAmount total cliff endL cur = 0)
    ∧ (endL ≤ cur → vestedAmount total cliff endL cur = total)
    ∧ (cliff ≤ cur → cur < endL →
        vestedAmount total cliff endL cur
          = total * (cur - cliff) / (endL - cliff))
    ∧ vestedAmount 1000 100 1100 100 = 0
    ∧ vestedAmount 1000 100 1100 600 = 500
    ∧ vestedAmount 1000 100 1100 1100 = 1000
    ∧ vestedAmount 1000 100 1100 1200 = 1000 := by
  refine ⟨?_, ?_, ?_, by decide, by decide, by decide, by decide⟩
  · intro h
    rw [vestedAmount, if_pos h]
  · intro h
    rw [vestedAmount, if_neg (by omega), if_pos h]
  · intro h1 h2
    rw [vestedAmount, if_neg (by omega), if_neg (by omega)]

/-- C4 witness: the midpoint value of the example schedule. -/
theorem C4_witness : vestedAmount 1000 100 1100 600 = 500 :=
  (C4_vestedAmount 1000 100 1100 600 (by decide)).2.2.2.2.1

/-- C5 counterexample: fetchVestingInfo computes the releasable amount as
the plain difference, so with vested 0 and released 5 it returns -5, which
is negative and differs from max(0, vested - released) = 0. -/
theorem C5_counterexample :
    Vesting.releasableAmount 0 5 = -5
    ∧ Vesting.releasableAmount 0 5 ≠ max 0 ((0 : Int) - 5) := by decide

/-- C5 (amended): the releasable amount is exactly vestedAmount - released
with no clamping; it agrees with max(0, vestedAmount - released) whenever
released ≤ vestedAmount, and is strictly negative whenever released
exceeds vestedAmount. -/
theorem C5_releasable (v r : Int) :
    Vesting.releasableAmount v r = v - r
    ∧ (r ≤ v → Vesting.releasableAmount v r = max 0 (v - r))
    ∧ (v < r → Vesting.releasableAmount v r < 0) := by
  refine ⟨rfl, fun h => ?_, fun h => ?_⟩
  · rw [Vesting.releasableAmount, max_eq_right (by omega)]
  · rw [Vesting.releasableAmount]
    omega

/-- C5 witness: with vested 10 and released 3 the clamped and unclamped
values agree at 7. -/
theorem C5_witness :
    (3 : Int) ≤ 10 ∧ Vesting.releasableAmount 10 3 = max 0 ((10 : Int) - 3) :=
  ⟨by decide, (C5_releasable 10 3).2.1 (by decide)⟩

/- ──────────────────────────────────────────────────────────────────
   C6: the submit-and-poll loops.
   ────────────────────────────────────────────────────────────────── -/

theorem vestingPollLoop_timeout (st : Nat → TxStatus)
    (h : ∀ j, st j = TxStatus.notFound) :
    ∀ fuel i, Vesting.pollLoop st fuel i
      = TxOutcome.thrown "Transaction timed out waiting for confirmation" := by
  intro fuel
  induction fuel with
  | zero => intro i; rfl
  | succ f ih =>
    intro i
    rw [Vesting.pollLoop, h i]
    exact ih (i + 1)

theorem vestingPollLoop_run (st : Nat → TxStatus) :
    ∀ fuel n i, n < fuel → (∀ j, j < n → st (i + j) = TxStatus.notFound) →
      Vesting.pollLoop st fuel i
        = match st (i + n) with
          | TxStatus.success => TxOutcome.resolved
          | TxStatus.failed => TxOutcome.thrown "Transaction failed on-chain"
          | TxStatus.notFound => Vesting.pollLoop st (fuel - n - 1) (i + n + 1) := by
  intro fuel
  induction fuel with
  | zero => intro n i hn; omega
  | succ f ih =>
    intro n i hn hall
    match n with
    | 0 =>
      rw [Vesting.pollLoop]
      simp only [Nat.add_zero, Nat.add_sub_cancel]
      cases hst : st i <;> rfl
    | m + 1 =>
      have h0 : st i = TxStatus.notFound := by
        have := hall 0 (by omega)
        simpa using this
      rw [Vesting.pollLoop, h0]
      have hrec := ih m (i + 1) (by omega)
        (fun j hj => by
          have := hall (j + 1) (by omega)
          rw [show i + (j + 1) = i + 1 + j by omega] at this
          exact this)
      rw [hrec]
      have he1 : i + 1 + m = i + (m + 1) := by omega
      have he2 : f - m - 1 = f + 1 - (m + 1) - 1 := by omega
      rw [he1, he2]

theorem stellarPollLoop_timeout (st : Nat → TxStatus)
    (h : ∀ j, st j = TxStatus.notFound) :
    ∀ fuel i, Stellar.pollLoop st fuel i TxStatus.notFound
      = TxStatus.notFound := by
  intro fuel
  induction fuel with
  | zero => intro i; rfl
  | succ f ih =>
    intro i
    rw [Stellar.pollLoop]
    rw [h i]
    exact ih (i + 1)

theorem stellarPollLoop_run (st : Nat → TxStatus) :
    ∀ fuel k n, k ≤ n → n ≤ k + fuel →
      (∀ j, k ≤ j → j < n → st j = TxStatus.notFound) →
      st n ≠ TxStatus.notFound →
      Stellar.pollLoop st fuel (k + 1) (st k) = st n := by
  intro fuel
  induction fuel with
  | zero =>
    intro k n h1 h2 _ _
    have : n = k := by omega
    subst this
    rfl
  | succ f ih =>
    intro k n h1 h2 hall hn
    rcases Nat.eq_or_lt_of_le h1 with he | hlt
    · have hkn : n = k := he.symm
      subst hkn
      cases hst : st n with
      | notFound => exact absurd hst hn
      | success => rfl
      | failed => rfl
    · have hk : st k = TxStatus.notFound := hall k (by omega) hlt
      rw [hk, Stellar.pollLoop]
      exact ih (k + 1) n (by omega) (by omega)
        (fun j hj1 hj2 => hall j (by omega) hj2) hn

/-- C6 (amended): both submit-and-poll loops are bounded by the cap of 30
attempts on the fixed 1-2s interval and keep polling while the remote
reports NOT_FOUND, SUCCESS resolves and FAILED rejects; but when NOT_FOUND
persists past the cap the operation rejects (throws) with a timeout-style
error distinct from the on-chain-failure error, instead of resolving to a
non-failure TimedOut outcome. -/
theorem C6_submitPoll :
    (∀ st : Nat → TxStatus, (∀ i, st i = TxStatus.notFound) →
      Vesting.submitTx st
          = TxOutcome.thrown "Transaction timed out waiting for confirmation"
      ∧ Stellar.submitTransaction st
          = TxOutcome.thrown "Transaction not found after polling")
    ∧ (∀ st : Nat → TxStatus, ∀ n, n < 30 →
        (∀ i, i < n → st i = TxStatus.notFound) → st n = TxStatus.success →
        Vesting.submitTx st = TxOutcome.resolved)
    ∧ (∀ st : Nat → TxStatus, ∀ n, n < 30 →
        (∀ i, i < n → st i = TxStatus.notFound) → st n = TxStatus.failed →
        Vesting.submitTx st = TxOutcome.thrown "Transaction failed on-chain")
    ∧ (∀ st : Nat → TxStatus, ∀ n, n ≤ 30 →
        (∀ i, i < n → st i = TxStatus.notFound) → st n = TxStatus.success →
        Stellar.submitTransaction st = TxOutcome.resolved)
    ∧ (∀ st : Nat → TxStatus, ∀ n, n ≤ 30 →
        (∀ i, i < n → st i = TxStatus.notFound) → st n = TxStatus.failed →
        Stellar.submitTransaction st = TxOutcome.thrown "Transaction failed")
    ∧ "Transaction timed out waiting for confirmation"
        ≠ "Transaction failed on-chain"
    ∧ "Transaction not found after polling" ≠ "Transaction failed" := by
  refine ⟨?_, ?_, ?_, ?_, ?_, by decide, by decide⟩
  · intro st h
    constructor
    · exact vestingPollLoop_timeout st h 30 0
    · rw [Stellar.submitTransaction, h 0, stellarPollLoop_timeout st h 30 1]
  · intro st n hn hall hs
    rw [Vesting.submitTx, vestingPollLoop_run st 30 n 0 hn
      (fun j hj => by simpa using hall j hj)]
    simp only [Nat.zero_add]
    rw [hs]
  · intro st n hn hall hs
    rw [Vesting.submitTx, vestingPollLoop_run st 30 n 0 hn
      (fun j hj => by simpa using hall j hj)]
    simp only [Nat.zero_add]
    rw [hs]
  · intro st n hn hall hs
    rw [Stellar.submitTransaction]
    rcases Nat.eq_zero_or_pos n with h0 | hpos
    · subst h0
      rw [show (1 : Nat) = 0 + 1 from rfl,
        stellarPollLoop_run st 30 0 0 (by omega) (by omega)
          (fun j h1 h2 => by omega) (by rw [hs]; intro hc; cases hc), hs]
    · have h0 : st 0 = TxStatus.notFound := hall 0 hpos
      rw [show (1 : Nat) = 0 + 1 from rfl,
        stellarPollLoop_run st 30 0 n (by omega) (by omega)
          (fun j h1 h2 => hall j h2) (by rw [hs]; intro hc; cases hc), hs]
  · intro st n hn hall hs
    rw [Stellar.submitTransaction]
    rcases Nat.eq_zero_or_pos n with h0 | hpos
    · subst h0
      rw [show (1 : Nat) = 0 + 1 from rfl,
        stellarPollLoop_run st 30 0 0 (by omega) (by omega)
          (fun j h1 h2 => by omega) (by rw [hs]; intro hc; cases hc), hs]
    · have h0 : st 0 = TxStatus.notFound := hall 0 hpos
      rw [show (1 : Nat) = 0 + 1 from rfl,
        stellarPollLoop_run st 30 0 n (by omega) (by omega)
          (fun j h1 h2 => hall j h2) (by rw [hs]; intro hc; cases hc), hs]

/-- C6 counterexample: a remote that reports NOT_FOUND on every query (31
or more times) makes both submit-and-poll implementations throw a timeout
error — the returned promise rejects — rather than resolve to a TimedOut
outcome without throwing, as the claim states. -/
theorem C6_counterexample :
    Vesting.submitTx (fun _ => TxStatus.notFound)
        = TxOutcome.thrown "Transaction timed out waiting for confirmation"
    ∧ Stellar.submitTransaction (fun _ => TxStatus.notFound)
        = TxOutcome.thrown "Transaction not found after polling" := by decide

/-- C6 witness: the all-NOT_FOUND stream times out with a thrown error and
a stream that reports SUCCESS on the fourth query resolves. -/
theorem C6_witness :
    (Vesting.submitTx (fun _ => TxStatus.notFound)
        = TxOutcome.thrown "Transaction timed out waiting for confirmation"
      ∧ Stellar.submitTransaction (fun _ => TxStatus.notFound)
        = TxOutcome.thrown "Transaction not found after polling")
    ∧ Vesting.submitTx
        (fun i => if i = 3 then TxStatus.success else TxStatus.notFound)
        = TxOutcome.resolved
    ∧ Stellar.submitTransaction
        (fun i => if i = 2 then TxStatus.failed else TxStatus.notFound)
        = TxOutcome.thrown "Transaction failed" :=
  ⟨C6_submitPoll.1 _ (fun _ => rfl),
   C6_submitPoll.2.1 _ 3 (by decide)
     (fun i hi => by simp [show i ≠ 3 by omega]) (by decide),
   C6_submitPoll.2.2.2.2.1 _ 2 (by decide)
     (fun i hi => by simp [show i ≠ 2 by omega]) (by decide)⟩

/- ──────────────────────────────────────────────────────────────────
   C7, C8: the error classifier.
   ────────────────────────────────────────────────────────────────── -/

theorem hasPrefixCL_of_append (a b : List Char) :
    ∀ l, hasPrefixCL l (a ++ b) = true → hasPrefixCL l a = true := by
  induction a with
  | nil => intro l _; cases l <;> rfl
  | cons c a' ih =>
    intro l h
    cases l with
    | nil => simp [hasPrefixCL] at h
    | cons x l' =>
      simp only [List.cons_append, hasPrefixCL, Bool.and_eq_true] at h ⊢
      exact ⟨h.1, ih l' h.2⟩

theorem containsCL_of_append (a b : List Char) :
    ∀ hay, containsCL hay (a ++ b) = true → containsCL hay a = true := by
  intro hay
  induction hay with
  | nil =>
    intro h
    simp only [containsCL, List.isEmpty_iff, List.append_eq_nil] at h ⊢
    exact h.1
  | cons x t ih =>
    intro h
    simp only [containsCL, Bool.or_eq_true] at h ⊢
    cases h with
    | inl h => exact Or.inl (hasPrefixCL_of_append a b _ h)
    | inr h => exact Or.inr (ih h)

theorem hasPrefixCL_refl : ∀ l : List Char, hasPrefixCL l l = true := by
  intro l
  induction l with
  | nil => rfl
  | cons c t ih => simp [hasPrefixCL, ih]

theorem containsCL_refl (l : List Char) : containsCL l l = true := by
  cases l with
  | nil => rfl
  | cons c t => simp [containsCL, hasPrefixCL_refl]

/-- C7: the claim fails on the code and the intent is clearly the claim:
the rule keyed "insufficient balance to burn" sits after the more general
"insufficient balance" rule, whose pattern is a leading piece of the burn
pattern, so the burn rule can never fire.  The exact burn pattern is
classified by the general insufficient-balance rule, and no input whose
lowercased text contains the burn pattern is ever answered with the burn
rule's message. -/
theorem C7_burnRule_shadowed :
    TxSim.parseSorobanError "insufficient balance to burn"
      = "Insufficient token balance for this operation."
    ∧ ∀ s : String,
        containsCL (toLowerList s.data) "insufficient balance to burn".data
            = false
        ∨ TxSim.parseSorobanError s
            ≠ "Cannot burn more tokens than the account holds." := by
  refine ⟨by decide, ?_⟩
  intro s
  by_cases h : containsCL (toLowerList s.data)
      "insufficient balance to burn".data = true
  · right
    intro hcontra
    have hbal : containsCL (toLowerList s.data)
        "insufficient balance".data = true := by
      have hsplit : "insufficient balance to burn".data
          = "insufficient balance".data ++ " to burn".data := by decide
      exact containsCL_of_append _ _ _ (hsplit ▸ h)
    have h12 : firstMatch (toLowerList s.data) TxSim.ERROR_MESSAGE_MAP
          = some "Contract is already initialized. Check if it was deployed previously."
        ∨ firstMatch (toLowerList s.data) TxSim.ERROR_MESSAGE_MAP
          = some "Insufficient token balance for this operation." := by
      rw [TxSim.ERROR_MESSAGE_MAP, firstMatch]
      by_cases h1 : containsCL (toLowerList s.data)
          (toLowerList "already initialized".data) = true
      · rw [if_pos h1]
        exact Or.inl rfl
      · rw [if_neg h1, firstMatch]
        have h2 : containsCL (toLowerList s.data)
            (toLowerList "insufficient balance".data) = true := by
          have he : toLowerList "insufficient balance".data
              = "insufficient balance".data := by decide
          rw [he]
          exact hbal
        rw [if_pos h2]
        exact Or.inr rfl
    rcases h12 with h12 | h12 <;>
      · simp only [TxSim.parseSorobanError, h12] at hcontra
        exact absurd hcontra (by decide)
  · left
    exact Bool.not_eq_true _ ▸ (by simpa using h)

/-- C8: the classifier is a total function (the embedding is a total Lean
function mirroring straight-line string tests), and on input matching no
rule it returns the original text, which in particular contains the
original input. -/
theorem C8_classifier_total (s : String) (h : TxSim.matchesNoRule s = true) :
    TxSim.parseSorobanError s = s
    ∧ containsCL (TxSim.parseSorobanError s).data s.data = true := by
  have key : TxSim.parseSorobanError s = s := by
    rw [TxSim.matchesNoRule] at h
    simp only [Bool.and_eq_true, Bool.not_eq_true', Option.isNone_iff_eq_none] at h
    obtain ⟨⟨⟨⟨⟨h0, h1⟩, h2⟩, h3⟩, h4⟩, h5⟩ := h
    rw [TxSim.parseSorobanError]
    simp [h0, h1, h2, h3, h4, h5]
  refine ⟨key, ?_⟩
  rw [key]
  exact containsCL_refl s.data

/-- C8 witness: a fully unrecognized input falls through unchanged. -/
theorem C8_witness :
    TxSim.matchesNoRule "totally unrecognized xyz" = true
    ∧ TxSim.parseSorobanError "totally unrecognized xyz"
        = "totally unrecognized xyz" :=
  ⟨by decide, (C8_classifier_total _ (by decide)).1⟩

/- ──────────────────────────────────────────────────────────────────
   C9, C10: the pre-flight simulator.
   ────────────────────────────────────────────────────────────────── -/

/-- C9: the PreflightCheckResult shape invariant: success is true exactly
when the remote simulation succeeded and included a result payload, success
implies an empty error list, and a success response without a result
payload is reported as a failure with the generic error, never as an
assumed success. -/
theorem C9_preflight_shape (a : SimAttempt) :
    ((TxSim.simulateTransaction a).success = true
      ↔ a = SimAttempt.returns (SimResponse.simSuccess true))
    ∧ ((TxSim.simulateTransaction a).success = true
        → (TxSim.simulateTransaction a).errors = [])
    ∧ (TxSim.simulateTransaction
          (SimAttempt.returns (SimResponse.simSuccess false))).success = false
    ∧ (TxSim.simulateTransaction
          (SimAttempt.returns (SimResponse.simSuccess false))).errors
        = ["Transaction simulation failed. Please check your inputs."] := by
  refine ⟨?_, ?_, rfl, rfl⟩
  · cases a with
    | throws msg => simp [TxSim.simulateTransaction]
    | returns r =>
      cases r with
      | simError msg => simp [TxSim.simulateTransaction]
      | simSuccess b => cases b <;> simp [TxSim.simulateTransaction]
      | other => simp [TxSim.simulateTransaction]
  · cases a with
    | throws msg => simp [TxSim.simulateTransaction]
    | returns r =>
      cases r with
      | simError msg => simp [TxSim.simulateTransaction]
      | simSuccess b => cases b <;> simp [TxSim.simulateTransaction]
      | other => simp [TxSim.simulateTransaction]

/-- C9 witness: a success response with a result payload yields success
with no errors. -/
theorem C9_witness :
    (TxSim.simulateTransaction
        (SimAttempt.returns (SimResponse.simSuccess true))).success = true
    ∧ (TxSim.simulateTransaction
        (SimAttempt.returns (SimResponse.simSuccess true))).errors = [] :=
  ⟨by decide,
   (C9_preflight_shape (SimAttempt.returns (SimResponse.simSuccess true))).2.1
     (by decide)⟩

/-- C10: simulateTransaction never rejects: an exception raised inside the
try block (bad contract ID, transport failure, and so on) is caught and
resolved into a failure carrying exactly the one classified message, and
every failure result carries exactly one error message. -/
theorem C10_neverRejects (msg : String) (a : SimAttempt) :
    (TxSim.simulateTransaction (SimAttempt.throws msg)).success = false
    ∧ (TxSim.simulateTransaction (SimAttempt.throws msg)).errors
        = [TxSim.parseSorobanError msg]
    ∧ ((TxSim.simulateTransaction a).success = false
        → (TxSim.simulateTransaction a).errors.length = 1) := by
  refine ⟨rfl, rfl, ?_⟩
  cases a with
  | throws m => intro _; rfl
  | returns r =>
    cases r with
    | simError m => intro _; rfl
    | simSuccess b =>
      cases b
      · intro _; rfl
      · intro hc; exact absurd hc (by simp [TxSim.simulateTransaction])
    | other => intro _; rfl

/-- C10 witness: a thrown "Network request failed" resolves to a one-error
failure. -/
theorem C10_witness :
    (TxSim.simulateTransaction
        (SimAttempt.throws "Network request failed")).success = false
    ∧ (TxSim.simulateTransaction
        (SimAttempt.throws "Network request failed")).errors.length = 1 :=
  ⟨by decide,
   (C10_neverRejects "Network request failed"
      (SimAttempt.throws "Network request failed")).2.2 (by decide)⟩
